import Mathlib

/-!
Shallow embedding of the Dartino VM stack-frame navigation (src/vm/frame.h)
and the UTF-8 / UTF-16 codec (src/vm/unicode.cc), with theorems settling the
specification claims about them.

Machine integers are modelled as Nat (with explicit truncation where the
source truncates: byte reads are taken modulo 256, the uint32 code-point
accumulator modulo 2^32) and as Int where the source uses signed words
(frame sizes, iterator indices).  Stack memory is a function from slot
indices to slot contents; a slot holds either the null sentinel (none) or
the address of another slot (some a).  Fallible operations return Option.
-/

namespace fletch

/-- Model of the external Stack collaborator (spec section 3): a contiguous
array of word slots addressed by index, with a top-of-stack index.  A slot
read as a frame pointer is either the null sentinel (none) or the slot
index it points at (some a). -/
structure Stack where
  slots : Nat → Option Nat
  top : Nat

/-- Frame from src/vm/frame.h: a transient cursor given by a frame-pointer
slot index and a size in slots (a signed word in the source). -/
structure Frame where
  frame_pointer_ : Nat
  size_ : Int
deriving DecidableEq

/-- Frame::PreviousFramePointer: read the slot at the frame pointer. -/
def Frame.PreviousFramePointer (s : Stack) (f : Frame) : Option Nat :=
  s.slots f.frame_pointer_

/-- Frame::FirstFrame: read the slot at the top of the stack as a frame
pointer; the size is the slot distance from that frame pointer to the top
slot.  Reinterpreting the null sentinel yields address 0, as in the source. -/
def Frame.FirstFrame (s : Stack) : Frame :=
  ⟨(s.slots s.top).getD 0, (s.top : Int) - (((s.slots s.top).getD 0 : Nat) : Int)⟩

/-- Frame::IsFirstFrame: the synthetic base frame has size exactly 2. -/
def Frame.IsFirstFrame (f : Frame) : Bool :=
  f.size_ = 2

/-- Frame::IsLastFrame: read the previous frame pointer — the value stored
in the slot at the frame pointer — and test whether the slot it points at
holds the null sentinel: the source dereferences the saved pointer a
second time (*PreviousFramePointer() == NULL, reading mem[mem[fp]]).  When
the saved pointer is itself the null sentinel, that second read
dereferences a null pointer — undefined behavior, modelled as none. -/
def Frame.IsLastFrame (s : Stack) (f : Frame) : Option Bool :=
  match s.slots f.frame_pointer_ with
  | none => none
  | some p => some (s.slots p).isNone

/-- Frame::Previous: read the previous frame pointer and test the slot it
points at, exactly the IsLastFrame condition; when that slot holds the
null sentinel the source hits UNREACHABLE (fatal process abort), and when
the saved pointer is itself null the test dereferences a null pointer —
in both cases no frame value is produced, modelled as none.  Otherwise the
new frame is anchored at the saved pointer, with size equal to the slot
distance between the two frame pointers. -/
def Frame.Previous (s : Stack) (f : Frame) : Option Frame :=
  match s.slots f.frame_pointer_ with
  | none => none
  | some p =>
    match s.slots p with
    | none => none
    | some _ => some ⟨p, (f.frame_pointer_ : Int) - (p : Int)⟩

/-- Frame::FirstLocalIndex: distance of the frame pointer from the stack
base (slot index 0) plus the fixed two-slot skip. -/
def Frame.FirstLocalIndex (f : Frame) : Int :=
  (f.frame_pointer_ : Int) + 2

/-- chainFrom s fp n: following the saved previous-frame-pointer slots from
slot fp reaches the null sentinel after exactly n links.  This is the
spec invariant of a stack with n active calls (spec section 3). -/
def chainFrom (s : Stack) : Nat → Nat → Prop
  | fp, 0 => s.slots fp = none
  | fp, n + 1 => ∃ p, s.slots fp = some p ∧ chainFrom s p n

/-- Iterate Frame.Previous k times from a frame, propagating the fatal
(none) outcome. -/
def iterPrev (s : Stack) : Frame → Nat → Option Frame
  | f, 0 => some f
  | f, n + 1 =>
    match Frame.Previous s f with
    | none => none
    | some g => iterPrev s g n

/-- The IsLastFrame value of the frame reached after k advances, when the
walk got that far (none when an advance or the test itself failed). -/
def iterLast (s : Stack) (f : Frame) (n : Nat) : Option Bool :=
  match iterPrev s f n with
  | none => none
  | some g => Frame.IsLastFrame s g

/-- Concrete stack used by witnesses: the top slot 8 holds the base frame
anchor 6, whose saved pointer targets the single active call anchored at
4; that call's saved pointer targets slot 2, which holds the null
sentinel. -/
def wStack : Stack :=
  ⟨fun i => if i = 8 then some 6 else if i = 6 then some 4
    else if i = 4 then some 2 else none, 8⟩

/-- Concrete malformed stack for the locals-ordering counterexample: the
saved slot of the frame anchored at 5 points upward to slot 10, which in
turn holds a non-null value, so Previous does not abort there and really
returns the upward frame. -/
def cexStack : Stack :=
  ⟨fun i => if i = 12 then some 5 else if i = 5 then some 10
    else if i = 10 then some 3 else none, 12⟩

end fletch

namespace dartino

/-- Utf8::kTrailBytes from src/vm/unicode.cc, verbatim: the 256-entry
lead-byte table. -/
def kTrailBytes : List Nat :=
  [1, 1, 1, 1, 1, 1, 1, 1, 1, 1, 1, 1, 1, 1, 1, 1, 1, 1, 1, 1, 1, 1, 1, 1,
   1, 1, 1, 1, 1, 1, 1, 1, 1, 1, 1, 1, 1, 1, 1, 1, 1, 1, 1, 1, 1, 1, 1, 1,
   1, 1, 1, 1, 1, 1, 1, 1, 1, 1, 1, 1, 1, 1, 1, 1, 1, 1, 1, 1, 1, 1, 1, 1,
   1, 1, 1, 1, 1, 1, 1, 1, 1, 1, 1, 1, 1, 1, 1, 1, 1, 1, 1, 1, 1, 1, 1, 1,
   1, 1, 1, 1, 1, 1, 1, 1, 1, 1, 1, 1, 1, 1, 1, 1, 1, 1, 1, 1, 1, 1, 1, 1,
   1, 1, 1, 1, 1, 1, 1, 1, 0, 0, 0, 0, 0, 0, 0, 0, 0, 0, 0, 0, 0, 0, 0, 0,
   0, 0, 0, 0, 0, 0, 0, 0, 0, 0, 0, 0, 0, 0, 0, 0, 0, 0, 0, 0, 0, 0, 0, 0,
   0, 0, 0, 0, 0, 0, 0, 0, 0, 0, 0, 0, 0, 0, 0, 0, 0, 0, 0, 0, 0, 0, 0, 0,
   2, 2, 2, 2, 2, 2, 2, 2, 2, 2, 2, 2, 2, 2, 2, 2, 2, 2, 2, 2, 2, 2, 2, 2,
   2, 2, 2, 2, 2, 2, 2, 2, 3, 3, 3, 3, 3, 3, 3, 3, 3, 3, 3, 3, 3, 3, 3, 3,
   4, 4, 4, 4, 4, 4, 4, 4, 5, 5, 5, 5, 6, 6, 0, 0]

/-- Utf8::kMagicBits from src/vm/unicode.cc. -/
def kMagicBits : List Nat :=
  [0, 0x00000000, 0x00003080, 0x000E2080, 0x03C82080, 0xFA082080, 0x82082080]

/-- Utf8::kOverlongMinimum from src/vm/unicode.cc. -/
def kOverlongMinimum : List Nat :=
  [0, 0x0, 0x80, 0x800, 0x10000, 0xFFFFFFFF, 0xFFFFFFFF]

/-- Modelled from the spec: unicode.h is not in this snapshot; a trailing
byte matches the 10xxxxxx pattern (spec section 4.2). -/
def Utf8.IsTrailByte (b : Nat) : Bool :=
  b &&& 0xC0 = 0x80

/-- Modelled from the spec: unicode.h is not in this snapshot; a code point
is out of range when it exceeds the maximum Unicode code point U+10FFFF
(spec sections 4.2 and 8). -/
def Utf.IsOutOfRange (ch : Nat) : Bool :=
  0x10FFFF < ch

/-- Modelled from the spec: unicode.h is not in this snapshot; an encoding
is non-shortest-form when the code point is below the minimum value that
legitimately requires that many code units (spec section 4.2), read from
the kOverlongMinimum table of src/vm/unicode.cc. -/
def Utf8.IsNonShortestForm (ch i : Nat) : Bool :=
  ch < kOverlongMinimum.getD i 0

/-- Modelled from the spec: unicode.h is not in this snapshot; a byte
pattern indicating a 4-byte (supplementary, at least U+10000) lead,
i.e. 0xF0 and above (spec section 4.2). -/
def Utf8.IsSupplementarySequenceStart (b : Nat) : Bool :=
  0xF0 ≤ b

/-- kMask inside Utf8::Encode: the complement of (1 <<< 6) as a 32-bit
value. -/
def Utf8.kMask : Nat := 0xFFFFFFBF

/-- Utf8::Length(int32 ch) from src/vm/unicode.cc. -/
def Utf8.Length (ch : Nat) : Nat :=
  if ch ≤ 0x7F then 1
  else if ch ≤ 0x7FF then 2
  else if ch ≤ 0xFFFF then 3
  else 4

/-- Utf8::Encode(int32 ch, char dst) from src/vm/unicode.cc, returning the
written bytes; each stored char is truncated modulo 256. -/
def Utf8.Encode (ch : Nat) : List Nat :=
  if ch ≤ 0x7F then
    [ch % 256]
  else if ch ≤ 0x7FF then
    [(0xC0 ||| (ch >>> 6)) % 256,
     (0x80 ||| (ch &&& Utf8.kMask)) % 256]
  else if ch ≤ 0xFFFF then
    [(0xE0 ||| (ch >>> 12)) % 256,
     (0x80 ||| ((ch >>> 6) &&& Utf8.kMask)) % 256,
     (0x80 ||| (ch &&& Utf8.kMask)) % 256]
  else
    [(0xF0 ||| (ch >>> 18)) % 256,
     (0x80 ||| ((ch >>> 12) &&& Utf8.kMask)) % 256,
     (0x80 ||| ((ch >>> 6) &&& Utf8.kMask)) % 256,
     (0x80 ||| (ch &&& Utf8.kMask)) % 256]

/-- View a byte list as the unbounded source array read by the decoder. -/
def arrOf (l : List Nat) : Nat → Nat :=
  fun i => l.getD i 0

/-- The trailing-byte loop of Utf8::Decode: steps is the remaining loop
iterations (from i up to the table entry), ch the uint32 accumulator, mal
the is_malformed flag.  Reading past array_len returns early (none, the
source returns 0 with the -1 sentinel). -/
def Utf8.DecodeLoop (a : Nat → Nat) (len : Nat) :
    Nat → Nat → Nat → Bool → Option (Nat × Bool)
  | 0, _, ch, mal => some (ch, mal)
  | steps + 1, i, ch, mal =>
    if i < len then
      Utf8.DecodeLoop a len steps (i + 1)
        (((ch <<< 6) + a i % 256) % 4294967296)
        (mal || !(Utf8.IsTrailByte (a i % 256)))
    else none

/-- The tail of Utf8::Decode after the loop: subtract the magic bits
(uint32 arithmetic) and apply the validity checks; t is the table entry
for the lead byte, so the loop counter i ended at 1 + (t - 1). -/
def Utf8.DecodeFinish (t ch1 : Nat) (mal : Bool) : Int × Nat :=
  let i := 1 + (t - 1)
  let ch2 := (ch1 + (4294967296 - kMagicBits.getD t 0)) % 4294967296
  if mal = false ∧ i = t ∧ Utf.IsOutOfRange ch2 = false ∧
      Utf8.IsNonShortestForm ch2 i = false then
    ((ch2 : Int), i)
  else (-1, 0)

/-- Utf8::Decode from src/vm/unicode.cc: returns the pair (value stored in
dst, number of bytes consumed); failure stores the -1 sentinel and
consumes 0 bytes. -/
def Utf8.Decode (a : Nat → Nat) (len : Nat) : Int × Nat :=
  if a 0 % 256 < 0x80 then
    ((a 0 % 256 : Nat), 1)
  else
    match Utf8.DecodeLoop a len (kTrailBytes.getD (a 0 % 256) 0 - 1) 1
        (a 0 % 256) false with
    | none => (-1, 0)
    | some (ch1, mal) => Utf8.DecodeFinish (kTrailBytes.getD (a 0 % 256) 0) ch1 mal

/-- Modelled from the spec: the lead-surrogate offset used by
Utf16::Encode in src/vm/unicode.cc is declared in the missing unicode.h;
it is the constant making code point 0x10000 encode with lead 0xD800
(spec section 4.2). -/
def Utf16.kLeadSurrogateOffset : Nat := 0xD7C0

/-- Utf16::Encode from src/vm/unicode.cc: the two code units written for a
supplementary code point. -/
def Utf16.Encode (codepoint : Nat) : Nat × Nat :=
  (Utf16.kLeadSurrogateOffset + (codepoint >>> 10), 0xDC00 + (codepoint &&& 0x3FF))

/-- Modelled from the spec: unicode.h is not in this snapshot; the UTF-16
length of a code point is 1 for code units up to 0xFFFF and 2 for
supplementary code points (spec sections 2 and 4.2). -/
def Utf16.Length (ch : Nat) : Nat :=
  if ch ≤ 0xFFFF then 1 else 2

/-- Modelled from the spec: unicode.h is not in this snapshot; lead
surrogates are the code units in [0xD800, 0xDBFF] (spec glossary). -/
def Utf16.IsLeadSurrogate (c : Nat) : Bool :=
  0xD800 ≤ c ∧ c ≤ 0xDBFF

/-- Modelled from the spec: unicode.h is not in this snapshot; trail
surrogates are the code units in [0xDC00, 0xDFFF] (spec glossary). -/
def Utf16.IsTrailSurrogate (c : Nat) : Bool :=
  0xDC00 ≤ c ∧ c ≤ 0xDFFF

/-- Modelled from the spec: unicode.h is not in this snapshot; merging a
surrogate pair is the inverse of Utf16::Encode: the lead carries the high
10 bits above 0x10000, the trail the low 10 bits (spec section 4.2). -/
def Utf16.Decode (lead trail : Nat) : Nat :=
  ((lead - Utf16.kLeadSurrogateOffset) <<< 10) + (trail - 0xDC00)

/-- Modelled from the spec: TwoByteString lives in the missing object.h;
get_code_unit returns the 16-bit code unit at an index (spec section 3). -/
def getCodeUnit (str : List Nat) (i : Int) : Nat :=
  str.getD i.toNat 0 % 65536

/-- CodePointIterator state from src/vm/unicode.cc: current code point,
current index (starts at -1) and the end bound. -/
structure CodePointIterator where
  ch_ : Nat
  index_ : Int
  end_ : Int
deriving DecidableEq

/-- CodePointIterator construction: ch 0, index -1, end the string length. -/
def CodePointIterator.start (str : List Nat) : CodePointIterator :=
  ⟨0, -1, (str.length : Int)⟩

/-- CodePointIterator::Next from src/vm/unicode.cc: advance by the UTF-16
length of the previous code point, read the unit there, and merge a valid
surrogate pair; returns whether a code point was produced, with the new
state. -/
def CodePointIterator.Next (str : List Nat) (s : CodePointIterator) :
    Bool × CodePointIterator :=
  let length : Int := (Utf16.Length s.ch_ : Int)
  if s.index_ < s.end_ - length then
    let idx := s.index_ + length
    let c := getCodeUnit str idx
    let merged :=
      if Utf16.IsLeadSurrogate c = true ∧ idx < s.end_ - 1 then
        if Utf16.IsTrailSurrogate (getCodeUnit str (idx + 1)) then
          Utf16.Decode c (getCodeUnit str (idx + 1))
        else c
      else c
    (true, ⟨merged, idx, s.end_⟩)
  else
    (false, ⟨s.ch_, s.end_, s.end_⟩)

/-- Collect the code points produced by repeatedly calling Next. -/
def CodePointIterator.collect (str : List Nat) : Nat → CodePointIterator → List Nat
  | 0, _ => []
  | fuel + 1, s =>
    match CodePointIterator.Next str s with
    | (false, _) => []
    | (true, s2) => s2.ch_ :: CodePointIterator.collect str fuel s2

/-- The full code-point sequence of a UTF-16 code-unit buffer. -/
def codePoints (str : List Nat) : List Nat :=
  CodePointIterator.collect str (str.length + 1) (CodePointIterator.start str)

/-- The loop of Utf8::DecodeToUTF16: i is the source byte index, j the
destination code-unit index; returns (result so far, final i, final j).
A result of false means an invalid sequence was hit; the destination
writes are modelled by the advance of j (one unit, or two when the lead
byte announced a supplementary sequence). -/
def Utf8.DecodeToUTF16Loop (a : Nat → Nat) (alen len : Nat) :
    Nat → Nat → Nat → Bool × Nat × Nat
  | 0, i, j => (true, i, j)
  | fuel + 1, i, j =>
    if i < alen ∧ j < len then
      if (Utf8.Decode (fun k => a (i + k)) (alen - i)).1 = -1 then
        (false, i, j)
      else
        Utf8.DecodeToUTF16Loop a alen len fuel
          (i + (Utf8.Decode (fun k => a (i + k)) (alen - i)).2)
          (if Utf8.IsSupplementarySequenceStart (a i % 256) then j + 2 else j + 1)
    else (true, i, j)

/-- Utf8::DecodeToUTF16 from src/vm/unicode.cc: run the loop, then report
output overflow only when source bytes remain and j landed exactly on
len. -/
def Utf8.DecodeToUTF16 (a : Nat → Nat) (alen len : Nat) : Bool :=
  match Utf8.DecodeToUTF16Loop a alen len (alen + 1) 0 0 with
  | (false, _, _) => false
  | (true, i, j) => !(decide (i < alen) && decide (j = len))

/-- The loop of the string overload of Utf8::Encode: drains the code-point
iterator, and for each code point that still fits entirely writes its
encoding at the current position; the write list records (index, byte)
pairs. -/
def Utf8.EncodeStrLoop (str : List Nat) (len : Nat) :
    Nat → CodePointIterator → Nat → List (Nat × Nat) → List (Nat × Nat) × Nat
  | 0, _, pos, acc => (acc, pos)
  | fuel + 1, s, pos, acc =>
    match CodePointIterator.Next str s with
    | (false, _) => (acc, pos)
    | (true, s2) =>
      if pos + Utf8.Length s2.ch_ > len then (acc, pos)
      else
        Utf8.EncodeStrLoop str len fuel s2 (pos + Utf8.Length s2.ch_)
          (acc ++ (List.range (Utf8.Encode s2.ch_).length).map
            (fun k => (pos + k, (Utf8.Encode s2.ch_).getD k 0)))

/-- Utf8::Encode(TwoByteString src, char dst, word len): the writes
performed and the returned byte count. -/
def Utf8.EncodeString (str : List Nat) (len : Nat) : List (Nat × Nat) × Nat :=
  Utf8.EncodeStrLoop str len (str.length + 1) (CodePointIterator.start str) 0 []

end dartino

namespace dartino

/-- Truncation modulo a power of two commutes with bitwise or. -/
lemma lor_mod_two_pow (a b n : Nat) :
    (a ||| b) % 2 ^ n = (a % 2 ^ n) ||| (b % 2 ^ n) := by
  apply Nat.eq_of_testBit_eq
  intro i
  simp only [Nat.testBit_mod_two_pow, Nat.testBit_lor]
  by_cases h : i < n <;> simp [h]

/-- Truncation modulo a power of two commutes with bitwise and. -/
lemma land_mod_two_pow (a b n : Nat) :
    (a &&& b) % 2 ^ n = (a % 2 ^ n) &&& (b % 2 ^ n) := by
  apply Nat.eq_of_testBit_eq
  intro i
  simp only [Nat.testBit_mod_two_pow, Nat.testBit_land]
  by_cases h : i < n <;> simp [h]

lemma lor192_eq : ∀ x, x < 32 → (192 ||| x) % 256 = 192 + x := by decide

lemma lor224_eq : ∀ x, x < 16 → (224 ||| x) % 256 = 224 + x := by decide

lemma lor240_eq : ∀ x, x < 8 → (240 ||| x) % 256 = 240 + x := by decide

set_option maxRecDepth 4096 in
lemma contByte_small : ∀ u, u < 256 → 128 ||| (u &&& 191) = 128 + u % 64 := by decide

/-- A continuation byte written by Utf8::Encode: or-ing 0x80 onto the
bit-6-cleared value and truncating to a char yields 128 plus the low six
bits. -/
lemma contByte_eq (y : Nat) :
    (128 ||| (y &&& Utf8.kMask)) % 256 = 128 + y % 64 := by
  have h256 : (256 : Nat) = 2 ^ 8 := by norm_num
  calc (128 ||| (y &&& Utf8.kMask)) % 256
      = (128 % 2 ^ 8) ||| ((y &&& Utf8.kMask) % 2 ^ 8) := by
        rw [h256, lor_mod_two_pow]
    _ = (128 % 2 ^ 8) ||| ((y % 2 ^ 8) &&& (Utf8.kMask % 2 ^ 8)) := by
        rw [land_mod_two_pow]
    _ = 128 ||| ((y % 256) &&& 191) := by norm_num [Utf8.kMask]
    _ = 128 + (y % 256) % 64 := contByte_small (y % 256) (Nat.mod_lt y (by norm_num))
    _ = 128 + y % 64 := by rw [Nat.mod_mod_of_dvd y (by norm_num)]

/-- Utf8::Encode on a two-byte code point, in arithmetic form. -/
lemma utf8_encode_two (ch : Nat) (h1 : 0x80 ≤ ch) (h2 : ch ≤ 0x7FF) :
    Utf8.Encode ch = [192 + ch / 64, 128 + ch % 64] := by
  have e0 : (0xC0 ||| (ch >>> 6)) % 256 = 192 + ch / 64 := by
    rw [Nat.shiftRight_eq_div_pow]
    norm_num
    exact lor192_eq (ch / 64) (by omega)
  have e1 : (0x80 ||| (ch &&& Utf8.kMask)) % 256 = 128 + ch % 64 := contByte_eq ch
  unfold Utf8.Encode
  rw [if_neg (by omega), if_pos (by omega), e0, e1]

/-- Utf8::Encode on a three-byte code point, in arithmetic form. -/
lemma utf8_encode_three (ch : Nat) (h1 : 0x800 ≤ ch) (h2 : ch ≤ 0xFFFF) :
    Utf8.Encode ch = [224 + ch / 4096, 128 + ch / 64 % 64, 128 + ch % 64] := by
  have e0 : (0xE0 ||| (ch >>> 12)) % 256 = 224 + ch / 4096 := by
    rw [Nat.shiftRight_eq_div_pow]
    norm_num
    exact lor224_eq (ch / 4096) (by omega)
  have e1 : (0x80 ||| ((ch >>> 6) &&& Utf8.kMask)) % 256 = 128 + ch / 64 % 64 := by
    rw [Nat.shiftRight_eq_div_pow]
    norm_num
    exact contByte_eq (ch / 64)
  have e2 : (0x80 ||| (ch &&& Utf8.kMask)) % 256 = 128 + ch % 64 := contByte_eq ch
  unfold Utf8.Encode
  rw [if_neg (by omega), if_neg (by omega), if_pos (by omega), e0, e1, e2]

/-- Utf8::Encode on a four-byte code point, in arithmetic form. -/
lemma utf8_encode_four (ch : Nat) (h1 : 0x10000 ≤ ch) (h2 : ch ≤ 0x10FFFF) :
    Utf8.Encode ch =
      [240 + ch / 262144, 128 + ch / 4096 % 64, 128 + ch / 64 % 64, 128 + ch % 64] := by
  have e0 : (0xF0 ||| (ch >>> 18)) % 256 = 240 + ch / 262144 := by
    rw [Nat.shiftRight_eq_div_pow]
    norm_num
    exact lor240_eq (ch / 262144) (by omega)
  have e1 : (0x80 ||| ((ch >>> 12) &&& Utf8.kMask)) % 256 = 128 + ch / 4096 % 64 := by
    rw [Nat.shiftRight_eq_div_pow]
    norm_num
    exact contByte_eq (ch / 4096)
  have e2 : (0x80 ||| ((ch >>> 6) &&& Utf8.kMask)) % 256 = 128 + ch / 64 % 64 := by
    rw [Nat.shiftRight_eq_div_pow]
    norm_num
    exact contByte_eq (ch / 64)
  have e3 : (0x80 ||| (ch &&& Utf8.kMask)) % 256 = 128 + ch % 64 := contByte_eq ch
  unfold Utf8.Encode
  rw [if_neg (by omega), if_neg (by omega), if_neg (by omega), e0, e1, e2, e3]

end dartino

namespace dartino

set_option maxRecDepth 4096 in
lemma trailTable_two : ∀ b, b < 256 → 192 ≤ b → b ≤ 223 → kTrailBytes.getD b 0 = 2 := by
  decide

set_option maxRecDepth 4096 in
lemma trailTable_three : ∀ b, b < 256 → 224 ≤ b → b ≤ 239 → kTrailBytes.getD b 0 = 3 := by
  decide

set_option maxRecDepth 4096 in
lemma trailTable_four : ∀ b, b < 256 → 240 ≤ b → b ≤ 247 → kTrailBytes.getD b 0 = 4 := by
  decide

set_option maxRecDepth 4096 in
lemma isTrailByte_cont : ∀ b, b < 256 → 128 ≤ b → b ≤ 191 → Utf8.IsTrailByte b = true := by
  decide

lemma decodeLoop_zero (a : Nat → Nat) (len i ch : Nat) (mal : Bool) :
    Utf8.DecodeLoop a len 0 i ch mal = some (ch, mal) := rfl

lemma decodeLoop_step (a : Nat → Nat) (len st i ch : Nat) (mal : Bool) (h : i < len) :
    Utf8.DecodeLoop a len (st + 1) i ch mal =
      Utf8.DecodeLoop a len st (i + 1) (((ch <<< 6) + a i % 256) % 4294967296)
        (mal || !(Utf8.IsTrailByte (a i % 256))) := by
  conv_lhs => rw [Utf8.DecodeLoop]
  rw [if_pos h]

/-- Success case of the decoder tail: with the malformed flag clear, a
valid table entry, and the magic-bit subtraction landing on an in-range,
shortest-form value, the decoder returns the value and the table entry as
the consumed count. -/
lemma decodeFinish_ok (t ch1 v : Nat) (ht1 : 1 ≤ t)
    (hsub : (ch1 + (4294967296 - kMagicBits.getD t 0)) % 4294967296 = v)
    (hrange : v ≤ 0x10FFFF) (hshort : kOverlongMinimum.getD t 0 ≤ v) :
    Utf8.DecodeFinish t ch1 false = ((v : Int), t) := by
  unfold Utf8.DecodeFinish
  have hi : 1 + (t - 1) = t := by omega
  rw [hi, hsub]
  have hout : Utf.IsOutOfRange v = false := by
    simp only [Utf.IsOutOfRange, decide_eq_false_iff_not]
    omega
  have hsh : Utf8.IsNonShortestForm v t = false := by
    simp only [Utf8.IsNonShortestForm, decide_eq_false_iff_not]
    omega
  rw [if_pos ⟨rfl, rfl, hout, hsh⟩]

/-- Utf8::Decode on a single ASCII byte. -/
lemma utf8_decode_ascii (c : Nat) (h : c ≤ 127) :
    Utf8.Decode (arrOf [c]) 1 = ((c : Int), 1) := by
  unfold Utf8.Decode
  have ha : arrOf [c] 0 = c := rfl
  rw [ha, Nat.mod_eq_of_lt (show c < 256 by omega), if_pos (by omega)]

/-- Utf8::Decode on a well-formed two-byte sequence. -/
lemma utf8_decode_two (b0 b1 v : Nat)
    (h00 : 192 ≤ b0) (h01 : b0 ≤ 223) (h10 : 128 ≤ b1) (h11 : b1 ≤ 191)
    (hv : b0 * 64 + b1 = 12416 + v) (hr : 128 ≤ v) :
    Utf8.Decode (arrOf [b0, b1]) 2 = ((v : Int), 2) := by
  have hm0 : b0 % 256 = b0 := Nat.mod_eq_of_lt (by omega)
  have hm1 : b1 % 256 = b1 := Nat.mod_eq_of_lt (by omega)
  have ht : kTrailBytes.getD b0 0 = 2 := trailTable_two b0 (by omega) h00 h01
  have htr : Utf8.IsTrailByte b1 = true := isTrailByte_cont b1 (by omega) h10 h11
  have hsh : b0 <<< 6 = b0 * 64 := by rw [Nat.shiftLeft_eq]
  have hloop : Utf8.DecodeLoop (arrOf [b0, b1]) 2 1 1 b0 false = some (12416 + v, false) := by
    have h1 := decodeLoop_step (arrOf [b0, b1]) 2 0 1 b0 false (by omega)
    norm_num at h1
    rw [h1]
    have ha1 : arrOf [b0, b1] 1 = b1 := rfl
    rw [ha1, hm1, htr, decodeLoop_zero, hsh]
    have : (b0 * 64 + b1) % 4294967296 = 12416 + v := by omega
    rw [this]
    rfl
  unfold Utf8.Decode
  have ha0 : arrOf [b0, b1] 0 = b0 := rfl
  rw [ha0, hm0, if_neg (by omega), ht]
  norm_num
  rw [hloop]
  show Utf8.DecodeFinish 2 (12416 + v) false = ((v : Int), 2)
  apply decodeFinish_ok 2 (12416 + v) v (by omega)
  · show (12416 + v + (4294967296 - 12416)) % 4294967296 = v
    omega
  · omega
  · show (128 : Nat) ≤ v
    omega

end dartino

namespace dartino

/-- Utf8::Decode on a well-formed three-byte sequence. -/
lemma utf8_decode_three (b0 b1 b2 v : Nat)
    (h00 : 224 ≤ b0) (h01 : b0 ≤ 239) (h10 : 128 ≤ b1) (h11 : b1 ≤ 191)
    (h20 : 128 ≤ b2) (h21 : b2 ≤ 191)
    (hv : (b0 * 64 + b1) * 64 + b2 = 925824 + v) (hr : 2048 ≤ v) :
    Utf8.Decode (arrOf [b0, b1, b2]) 3 = ((v : Int), 3) := by
  have hm0 : b0 % 256 = b0 := Nat.mod_eq_of_lt (by omega)
  have hm1 : b1 % 256 = b1 := Nat.mod_eq_of_lt (by omega)
  have hm2 : b2 % 256 = b2 := Nat.mod_eq_of_lt (by omega)
  have ht : kTrailBytes.getD b0 0 = 3 := trailTable_three b0 (by omega) h00 h01
  have htr1 : Utf8.IsTrailByte b1 = true := isTrailByte_cont b1 (by omega) h10 h11
  have htr2 : Utf8.IsTrailByte b2 = true := isTrailByte_cont b2 (by omega) h20 h21
  have hloop : Utf8.DecodeLoop (arrOf [b0, b1, b2]) 3 2 1 b0 false =
      some (925824 + v, false) := by
    have h1 := decodeLoop_step (arrOf [b0, b1, b2]) 3 1 1 b0 false (by omega)
    norm_num at h1
    rw [h1]
    have ha1 : arrOf [b0, b1, b2] 1 = b1 := rfl
    rw [ha1, hm1, htr1, Nat.shiftLeft_eq]
    norm_num
    have e1 : (b0 * 64 + b1) % 4294967296 = b0 * 64 + b1 := Nat.mod_eq_of_lt (by omega)
    rw [e1]
    have h2 := decodeLoop_step (arrOf [b0, b1, b2]) 3 0 2 (b0 * 64 + b1) false (by omega)
    norm_num at h2
    rw [h2]
    have ha2 : arrOf [b0, b1, b2] 2 = b2 := rfl
    rw [ha2, hm2, htr2, Nat.shiftLeft_eq]
    norm_num
    rw [decodeLoop_zero]
    have e2 : ((b0 * 64 + b1) * 64 + b2) % 4294967296 = 925824 + v := by
      rw [hv]
      exact Nat.mod_eq_of_lt (by omega)
    rw [e2]
  unfold Utf8.Decode
  have ha0 : arrOf [b0, b1, b2] 0 = b0 := rfl
  rw [ha0, hm0, if_neg (by omega), ht]
  norm_num
  rw [hloop]
  show Utf8.DecodeFinish 3 (925824 + v) false = ((v : Int), 3)
  apply decodeFinish_ok 3 (925824 + v) v (by omega)
  · show (925824 + v + (4294967296 - 925824)) % 4294967296 = v
    omega
  · omega
  · show (2048 : Nat) ≤ v
    omega

/-- Utf8::Decode on a well-formed four-byte sequence. -/
lemma utf8_decode_four (b0 b1 b2 b3 v : Nat)
    (h00 : 240 ≤ b0) (h01 : b0 ≤ 247) (h10 : 128 ≤ b1) (h11 : b1 ≤ 191)
    (h20 : 128 ≤ b2) (h21 : b2 ≤ 191) (h30 : 128 ≤ b3) (h31 : b3 ≤ 191)
    (hv : ((b0 * 64 + b1) * 64 + b2) * 64 + b3 = 63447168 + v)
    (hr : 65536 ≤ v) (hx : v ≤ 0x10FFFF) :
    Utf8.Decode (arrOf [b0, b1, b2, b3]) 4 = ((v : Int), 4) := by
  have hm0 : b0 % 256 = b0 := Nat.mod_eq_of_lt (by omega)
  have hm1 : b1 % 256 = b1 := Nat.mod_eq_of_lt (by omega)
  have hm2 : b2 % 256 = b2 := Nat.mod_eq_of_lt (by omega)
  have hm3 : b3 % 256 = b3 := Nat.mod_eq_of_lt (by omega)
  have ht : kTrailBytes.getD b0 0 = 4 := trailTable_four b0 (by omega) h00 h01
  have htr1 : Utf8.IsTrailByte b1 = true := isTrailByte_cont b1 (by omega) h10 h11
  have htr2 : Utf8.IsTrailByte b2 = true := isTrailByte_cont b2 (by omega) h20 h21
  have htr3 : Utf8.IsTrailByte b3 = true := isTrailByte_cont b3 (by omega) h30 h31
  have hloop : Utf8.DecodeLoop (arrOf [b0, b1, b2, b3]) 4 3 1 b0 false =
      some (63447168 + v, false) := by
    have h1 := decodeLoop_step (arrOf [b0, b1, b2, b3]) 4 2 1 b0 false (by omega)
    norm_num at h1
    rw [h1]
    have ha1 : arrOf [b0, b1, b2, b3] 1 = b1 := rfl
    rw [ha1, hm1, htr1, Nat.shiftLeft_eq]
    norm_num
    have e1 : (b0 * 64 + b1) % 4294967296 = b0 * 64 + b1 := Nat.mod_eq_of_lt (by omega)
    rw [e1]
    have h2 := decodeLoop_step (arrOf [b0, b1, b2, b3]) 4 1 2 (b0 * 64 + b1) false (by omega)
    norm_num at h2
    rw [h2]
    have ha2 : arrOf [b0, b1, b2, b3] 2 = b2 := rfl
    rw [ha2, hm2, htr2, Nat.shiftLeft_eq]
    norm_num
    have e2 : ((b0 * 64 + b1) * 64 + b2) % 4294967296 = (b0 * 64 + b1) * 64 + b2 :=
      Nat.mod_eq_of_lt (by omega)
    rw [e2]
    have h3 := decodeLoop_step (arrOf [b0, b1, b2, b3]) 4 0 3 ((b0 * 64 + b1) * 64 + b2)
      false (by omega)
    norm_num at h3
    rw [h3]
    have ha3 : arrOf [b0, b1, b2, b3] 3 = b3 := rfl
    rw [ha3, hm3, htr3, Nat.shiftLeft_eq]
    norm_num
    rw [decodeLoop_zero]
    have e3 : (((b0 * 64 + b1) * 64 + b2) * 64 + b3) % 4294967296 = 63447168 + v := by
      rw [hv]
      exact Nat.mod_eq_of_lt (by omega)
    rw [e3]
  unfold Utf8.Decode
  have ha0 : arrOf [b0, b1, b2, b3] 0 = b0 := rfl
  rw [ha0, hm0, if_neg (by omega), ht]
  norm_num
  rw [hloop]
  show Utf8.DecodeFinish 4 (63447168 + v) false = ((v : Int), 4)
  apply decodeFinish_ok 4 (63447168 + v) v (by omega)
  · show (63447168 + v + (4294967296 - 63447168)) % 4294967296 = v
    omega
  · omega
  · show (65536 : Nat) ≤ v
    omega

end dartino

open dartino in
/-- Claim C1: for every code point up to U+10FFFF outside the surrogate
range, Utf8::Decode applied to the bytes produced by Utf8::Encode, with
array length Utf8::Length of the code point, succeeds, yields the original
code point, and consumes exactly Utf8::Length bytes. -/
theorem utf8_encode_decode_round_trip (ch : Nat) (hmax : ch ≤ 0x10FFFF)
    (hsur : ¬ (0xD800 ≤ ch ∧ ch ≤ 0xDFFF)) :
    Utf8.Decode (arrOf (Utf8.Encode ch)) (Utf8.Length ch) = ((ch : Int), Utf8.Length ch) := by
  by_cases c1 : ch ≤ 0x7F
  · have hL : Utf8.Length ch = 1 := by unfold Utf8.Length; rw [if_pos c1]
    have hE : Utf8.Encode ch = [ch] := by
      unfold Utf8.Encode
      rw [if_pos c1, Nat.mod_eq_of_lt (show ch < 256 by omega)]
    rw [hE, hL]
    exact utf8_decode_ascii ch (by omega)
  · by_cases c2 : ch ≤ 0x7FF
    · have hL : Utf8.Length ch = 2 := by unfold Utf8.Length; rw [if_neg c1, if_pos c2]
      rw [utf8_encode_two ch (by omega) c2, hL]
      exact utf8_decode_two (192 + ch / 64) (128 + ch % 64) ch (by omega) (by omega)
        (by omega) (by omega) (by omega) (by omega)
    · by_cases c3 : ch ≤ 0xFFFF
      · have hL : Utf8.Length ch = 3 := by
          unfold Utf8.Length; rw [if_neg c1, if_neg c2, if_pos c3]
        rw [utf8_encode_three ch (by omega) c3, hL]
        exact utf8_decode_three (224 + ch / 4096) (128 + ch / 64 % 64) (128 + ch % 64) ch
          (by omega) (by omega) (by omega) (by omega) (by omega) (by omega)
          (by omega) (by omega)
      · have hL : Utf8.Length ch = 4 := by
          unfold Utf8.Length; rw [if_neg c1, if_neg c2, if_neg c3]
        rw [utf8_encode_four ch (by omega) hmax, hL]
        exact utf8_decode_four (240 + ch / 262144) (128 + ch / 4096 % 64)
          (128 + ch / 64 % 64) (128 + ch % 64) ch (by omega) (by omega) (by omega)
          (by omega) (by omega) (by omega) (by omega) (by omega) (by omega)
          (by omega) hmax

open dartino in
/-- Witness for C1 at the concrete code point U+1F600. -/
theorem utf8_encode_decode_round_trip_witness :
    Utf8.Decode (arrOf (Utf8.Encode 128512)) (Utf8.Length 128512) =
      (((128512 : Nat) : Int), Utf8.Length 128512) :=
  utf8_encode_decode_round_trip 128512 (by decide) (by decide)

open dartino in
/-- Claim C5: Utf8::Decode rejects the overlong two-byte sequence
0xC0 0x80 (an overlong encoding of U+0000): it stores the -1 sentinel and
consumes zero bytes. -/
theorem utf8_overlong_c0_80_rejected :
    Utf8.Decode (arrOf [0xC0, 0x80]) 2 = (-1, 0) := by decide

open dartino in
/-- Claim C6: on a buffer of length 1 whose byte at index 0 is the lead
0xE2 (declaring two trailing bytes), Utf8::Decode reports failure with the
-1 sentinel and zero bytes consumed; since this holds for every source
array that has 0xE2 at index 0, the result depends on no index at or
beyond the supplied length 1. -/
theorem utf8_truncated_e2_safe (a : Nat → Nat) (h : a 0 = 0xE2) :
    Utf8.Decode a 1 = (-1, 0) := by
  unfold Utf8.Decode
  rw [h]
  rfl

open dartino in
/-- Witness for C6 at a concrete source array. -/
theorem utf8_truncated_e2_safe_witness :
    Utf8.Decode (fun _ => 0xE2) 1 = (-1, 0) :=
  utf8_truncated_e2_safe (fun _ => 0xE2) rfl

open dartino in
/-- Claim C3 counterexample: the table entry for the ASCII byte 0x41 is 1,
not 0, and the entry for the two-byte lead 0xC2 is 2, not 1 — the table
stores total sequence lengths, not trailing-byte counts. -/
theorem utf8_trail_table_cex :
    kTrailBytes.getD 0x41 0 = 1 ∧ ¬ kTrailBytes.getD 0x41 0 = 0 ∧
    kTrailBytes.getD 0xC2 0 = 2 ∧ ¬ kTrailBytes.getD 0xC2 0 = 1 := by decide

set_option maxRecDepth 8192 in
set_option synthInstance.maxSize 2000 in
open dartino in
/-- Claim C3 amended: the 256-entry table maps each byte to the total
length of the sequence it would lead: 1 for ASCII bytes, 2 to 6 for
multi-byte leads (so the trailing-byte count used by the decoder loop,
which runs from 1 up to the entry, is the entry minus 1, i.e. 1 to 5), and
0 for invalid leads — stray continuation bytes 0x80-0xBF and 0xFE/0xFF —
whose zero entry makes the final counter check fail so the sequence is
rejected with the -1 sentinel and zero bytes consumed. -/
theorem utf8_trail_table_characterized :
    (∀ b, b < 256 →
      ((b ≤ 0x7F → kTrailBytes.getD b 0 = 1) ∧
       (0x80 ≤ b → b ≤ 0xBF → kTrailBytes.getD b 0 = 0) ∧
       (0xC0 ≤ b → b ≤ 0xDF → kTrailBytes.getD b 0 = 2) ∧
       (0xE0 ≤ b → b ≤ 0xEF → kTrailBytes.getD b 0 = 3) ∧
       (0xF0 ≤ b → b ≤ 0xF7 → kTrailBytes.getD b 0 = 4) ∧
       (0xF8 ≤ b → b ≤ 0xFB → kTrailBytes.getD b 0 = 5) ∧
       (0xFC ≤ b → b ≤ 0xFD → kTrailBytes.getD b 0 = 6) ∧
       (0xFE ≤ b → kTrailBytes.getD b 0 = 0))) ∧
    Utf8.Decode (arrOf [0x80, 0x41]) 2 = (-1, 0) ∧
    Utf8.Decode (arrOf [0xFE, 0x41]) 2 = (-1, 0) := by decide

open dartino in
/-- Witness for C3 amended at the concrete lead byte 0xC4. -/
theorem utf8_trail_table_characterized_witness :
    kTrailBytes.getD 0xC4 0 = 2 :=
  (utf8_trail_table_characterized.1 0xC4 (by decide)).2.2.1 (by decide) (by decide)

open dartino in
/-- Claim C4: iterating the code-point iterator over [0xD83D, 0xDE00]
yields exactly one code point, the merged supplementary U+1F600, while
[0xD83D, 0x0041] yields two, the unpaired lead surrogate U+D83D passed
through unchanged and then U+0041. -/
theorem code_point_iterator_pairs :
    codePoints [0xD83D, 0xDE00] = [0x1F600] ∧
    codePoints [0xD83D, 0x0041] = [0xD83D, 0x0041] := by decide

open dartino in
/-- Claim C2 failing input: on the source F0 9F 98 80 41 with destination
capacity 1, the loop decodes the supplementary sequence while only one
destination slot remains, advances j from 0 to 2 (the second code unit
lands at index 1, which equals the capacity — past the buffer), exits with
the source byte 0x41 unconsumed (i = 4 of 5), skips the overflow test
because j is now capacity + 1 rather than capacity, and returns true,
where the claim requires false. -/
theorem decode_to_utf16_overflow_missed :
    Utf8.DecodeToUTF16 (arrOf [0xF0, 0x9F, 0x98, 0x80, 0x41]) 5 1 = true ∧
    Utf8.DecodeToUTF16Loop (arrOf [0xF0, 0x9F, 0x98, 0x80, 0x41]) 5 1 6 0 0 =
      (true, 4, 2) := by decide

/-- Walking lemma: when the slot chain below a frame makes n + 1 pointer
hops before reaching the slot that holds the null sentinel, the n-th
advance is the first whose frame satisfies the IsLastFrame test — both
IsLastFrame and the Previous guard read the sentinel through the saved
pointer (mem[mem[fp]]), so the stopping frame is the one whose saved
pointer targets the null-holding slot. -/
lemma chainFrom_iterLast (s : fletch.Stack) :
    ∀ (n : Nat) (f : fletch.Frame), fletch.chainFrom s f.frame_pointer_ (n + 1) →
      fletch.iterLast s f n = some true ∧
      ∀ k, k < n → fletch.iterLast s f k = some false := by
  intro n
  induction n with
  | zero =>
    intro f h
    unfold fletch.chainFrom at h
    obtain ⟨p, hp, hnull⟩ := h
    unfold fletch.chainFrom at hnull
    constructor
    · simp [fletch.iterLast, fletch.iterPrev, fletch.Frame.IsLastFrame, hp, hnull]
    · intro k hk
      omega
  | succ n ih =>
    intro f h
    unfold fletch.chainFrom at h
    obtain ⟨p, hp, hc⟩ := h
    have hc2 := hc
    unfold fletch.chainFrom at hc2
    obtain ⟨q, hq, _⟩ := hc2
    have hprev : fletch.Frame.Previous s f =
        some ⟨p, (f.frame_pointer_ : Int) - (p : Int)⟩ := by
      simp [fletch.Frame.Previous, hp, hq]
    have hstep : ∀ k, fletch.iterPrev s f (k + 1) =
        fletch.iterPrev s ⟨p, (f.frame_pointer_ : Int) - (p : Int)⟩ k := by
      intro k
      conv_lhs => rw [fletch.iterPrev]
      rw [hprev]
    have ihg := ih ⟨p, (f.frame_pointer_ : Int) - (p : Int)⟩ hc
    constructor
    · unfold fletch.iterLast
      rw [hstep n]
      exact ihg.1
    · intro k hk
      cases k with
      | zero =>
        simp [fletch.iterLast, fletch.iterPrev, fletch.Frame.IsLastFrame, hp, hq]
      | succ k2 =>
        unfold fletch.iterLast
        rw [hstep k2]
        exact ihg.2 k2 (by omega)

/-- Claim C7: on a stack with n active calls — the saved
previous-frame-pointer slots form an acyclic chain from the synthetic base
frame returned by FirstFrame through the n call anchors to the null
sentinel, which the outermost call's saved pointer targets, so the chain
makes n + 1 pointer hops before reaching the null-holding slot — exactly n
applications of Previous reach a frame for which the IsLastFrame test
(*PreviousFramePointer() == NULL) is true, and the test is false at every
earlier frame of the walk.  That hop count is forced by the code: the
sentinel is read through the saved pointer, one dereference below the
frame being tested, so the walk visits the base frame and each of the n
call frames exactly once. -/
theorem frame_chain_reaches_outermost (s : fletch.Stack) (n : Nat)
    (h : fletch.chainFrom s (fletch.Frame.FirstFrame s).frame_pointer_ (n + 1)) :
    fletch.iterLast s (fletch.Frame.FirstFrame s) n = some true ∧
    ∀ k, k < n → fletch.iterLast s (fletch.Frame.FirstFrame s) k = some false :=
  chainFrom_iterLast s n (fletch.Frame.FirstFrame s) h

/-- Witness for C7 on the concrete stack wStack, which has one active
call: its base frame is not last (its saved pointer targets the call frame
at 4, whose slot is non-null), and after one advance the walk is at the
call frame whose saved pointer targets the null-holding slot 2. -/
theorem frame_chain_reaches_outermost_witness :
    fletch.iterLast fletch.wStack (fletch.Frame.FirstFrame fletch.wStack) 1 = some true ∧
    fletch.iterLast fletch.wStack (fletch.Frame.FirstFrame fletch.wStack) 0 = some false := by
  have h := frame_chain_reaches_outermost fletch.wStack 1 ⟨4, rfl, 2, rfl, rfl⟩
  exact ⟨h.1, h.2 0 (by omega)⟩

/-- Claim C8 counterexample: on wStack the frame anchored at slot 4 has a
non-null previous-frame-pointer slot (it holds the address 2), yet
Previous returns no frame at all — the source dereferences the saved
pointer, finds the null sentinel at slot 2, and aborts at UNREACHABLE — so
a non-null slot does not guarantee that Previous returns the frame at that
address; the abort coincides with IsLastFrame being true, not with the
slot being null. -/
theorem frame_previous_nonnull_slot_cex :
    fletch.wStack.slots (4 : Nat) = some 2 ∧
    fletch.Frame.IsLastFrame fletch.wStack ⟨4, 2⟩ = some true ∧
    fletch.Frame.Previous fletch.wStack ⟨4, 2⟩ = none := by decide

/-- Claim C8 amended: Previous aborts the process (returns no frame value)
exactly when the second dereference *PreviousFramePointer() yields the
null sentinel — the very condition IsLastFrame tests, the precondition the
caller must check — which can happen with the frame's own saved slot
non-null; when the saved slot itself holds the null sentinel the test
dereferences a null pointer before any guard, again producing no frame
value; and for every frame whose saved slot holds an address p with the
slot at p non-null, Previous returns the frame anchored at p whose size is
the slot distance between the current and the new frame pointer. -/
theorem frame_previous_fatal_or_distance (s : fletch.Stack) (f : fletch.Frame) :
    (fletch.Frame.IsLastFrame s f = some true → fletch.Frame.Previous s f = none) ∧
    (s.slots f.frame_pointer_ = none → fletch.Frame.Previous s f = none) ∧
    (∀ p q, s.slots f.frame_pointer_ = some p → s.slots p = some q →
      fletch.Frame.Previous s f = some ⟨p, (f.frame_pointer_ : Int) - (p : Int)⟩) := by
  refine ⟨?_, ?_, ?_⟩
  · intro h
    unfold fletch.Frame.IsLastFrame at h
    cases hfp : s.slots f.frame_pointer_ with
    | none =>
      unfold fletch.Frame.Previous
      rw [hfp]
    | some p =>
      rw [hfp] at h
      simp at h
      simp [fletch.Frame.Previous, hfp, h]
  · intro h
    unfold fletch.Frame.Previous
    rw [h]
  · intro p q hp hq
    simp [fletch.Frame.Previous, hp, hq]

/-- Witness for C8 amended on wStack: the base frame at slot 6 advances to
the call frame at slot 4 with size 2, while the call frame at slot 4,
whose saved pointer targets the null-holding slot 2, yields no frame. -/
theorem frame_previous_fatal_or_distance_witness :
    fletch.Frame.Previous fletch.wStack ⟨6, 2⟩ = some ⟨4, (6 : Int) - (4 : Int)⟩ ∧
    fletch.Frame.Previous fletch.wStack ⟨4, 2⟩ = none :=
  ⟨(frame_previous_fatal_or_distance fletch.wStack ⟨6, 2⟩).2.2 4 2 rfl rfl,
   (frame_previous_fatal_or_distance fletch.wStack ⟨4, 2⟩).1 (by decide)⟩

/-- Claim C9 counterexample: on the malformed cexStack, FirstFrame has
positive size 7 and a non-null saved slot, yet that slot points upward (to
10, above the frame pointer 5); slot 10 holds a non-null value, so
Previous really returns the frame at 10 (no abort on this input), and its
FirstLocalIndex 12 is not below this frame's FirstLocalIndex 7 — the claim
as stated fails for this frame. -/
theorem frame_locals_ordering_cex :
    0 < (fletch.Frame.FirstFrame fletch.cexStack).size_ ∧
    fletch.cexStack.slots (fletch.Frame.FirstFrame fletch.cexStack).frame_pointer_ =
      some 10 ∧
    fletch.Frame.Previous fletch.cexStack (fletch.Frame.FirstFrame fletch.cexStack) =
      some ⟨10, -5⟩ ∧
    ¬ (fletch.Frame.FirstLocalIndex ⟨10, -5⟩ <
        fletch.Frame.FirstLocalIndex (fletch.Frame.FirstFrame fletch.cexStack)) := by
  decide

/-- Claim C9 amended: for every frame whose saved previous-frame-pointer
slot holds an address p strictly below its own frame pointer — which the
calling convention guarantees whenever the frame was called from the frame
below — and whose Previous does not abort (the slot at p is itself
non-null, i.e. the IsLastFrame test is false), Previous returns the frame
at p and its FirstLocalIndex is strictly smaller than this frame's. -/
theorem frame_locals_ordering (s : fletch.Stack) (f : fletch.Frame) (p q : Nat)
    (hp : s.slots f.frame_pointer_ = some p) (hq : s.slots p = some q)
    (hlt : p < f.frame_pointer_) :
    fletch.Frame.Previous s f = some ⟨p, (f.frame_pointer_ : Int) - (p : Int)⟩ ∧
    fletch.Frame.FirstLocalIndex ⟨p, (f.frame_pointer_ : Int) - (p : Int)⟩ <
      fletch.Frame.FirstLocalIndex f := by
  constructor
  · simp [fletch.Frame.Previous, hp, hq]
  · show (p : Int) + 2 < (f.frame_pointer_ : Int) + 2
    omega

/-- Witness for C9 amended on wStack at the base frame anchored at slot 8:
its saved pointer targets slot 6 below it, slot 6 is non-null, and the
locals-start index drops from 10 to 8. -/
theorem frame_locals_ordering_witness :
    fletch.Frame.Previous fletch.wStack ⟨8, 2⟩ = some ⟨6, (8 : Int) - (6 : Int)⟩ ∧
    fletch.Frame.FirstLocalIndex ⟨6, (8 : Int) - (6 : Int)⟩ <
      fletch.Frame.FirstLocalIndex ⟨8, 2⟩ :=
  frame_locals_ordering fletch.wStack ⟨8, 2⟩ 6 4 rfl rfl (by decide)

open dartino in
/-- The byte list written by Utf8::Encode always has exactly
Utf8::Length bytes. -/
lemma utf8_encode_length (ch : Nat) : (Utf8.Encode ch).length = Utf8.Length ch := by
  unfold Utf8.Encode Utf8.Length
  split_ifs <;> rfl

open dartino in
/-- Loop invariant of the string encoder: if the accumulated writes cover
exactly the byte indices below pos and pos is within the capacity, the
final writes cover exactly the indices below the returned count, which
stays within the capacity. -/
lemma encodeStrLoop_inv (str : List Nat) (len : Nat) :
    ∀ (fuel : Nat) (s : CodePointIterator) (pos : Nat) (acc : List (Nat × Nat)),
      pos ≤ len → acc.map Prod.fst = List.range pos →
      (Utf8.EncodeStrLoop str len fuel s pos acc).2 ≤ len ∧
      (Utf8.EncodeStrLoop str len fuel s pos acc).1.map Prod.fst =
        List.range (Utf8.EncodeStrLoop str len fuel s pos acc).2 := by
  intro fuel
  induction fuel with
  | zero =>
    intro s pos acc h1 h2
    exact ⟨h1, h2⟩
  | succ fuel ih =>
    intro s pos acc h1 h2
    unfold Utf8.EncodeStrLoop
    cases hnext : CodePointIterator.Next str s with
    | mk b s2 =>
      cases b with
      | false =>
        exact ⟨h1, h2⟩
      | true =>
        dsimp only
        by_cases hfit : pos + Utf8.Length s2.ch_ > len
        · rw [if_pos hfit]
          exact ⟨h1, h2⟩
        · rw [if_neg hfit]
          apply ih
          · omega
          · rw [List.map_append, h2, List.map_map]
            have hcomp : (Prod.fst ∘ fun k => (pos + k, (Utf8.Encode s2.ch_).getD k 0)) =
                fun k => pos + k := rfl
            rw [hcomp, utf8_encode_length, ← List.range_add]

open dartino in
/-- Claim C10: for every source string and capacity, the string encoder
returns a byte count no larger than the capacity, its writes land exactly
on the consecutive byte indices below that count (each code point written
whole — it stops at the first code point that would not fit entirely), and
in particular every written index is strictly below the capacity. -/
theorem utf8_encode_string_bounded (str : List Nat) (len : Nat) :
    (Utf8.EncodeString str len).2 ≤ len ∧
    (Utf8.EncodeString str len).1.map Prod.fst =
      List.range (Utf8.EncodeString str len).2 ∧
    ∀ w, w ∈ (Utf8.EncodeString str len).1 → w.1 < len := by
  unfold Utf8.EncodeString
  have h := encodeStrLoop_inv str len (str.length + 1) (CodePointIterator.start str) 0 []
    (by omega) rfl
  refine ⟨h.1, h.2, ?_⟩
  intro w hw
  have hmem : w.1 ∈ (Utf8.EncodeStrLoop str len (str.length + 1)
      (CodePointIterator.start str) 0 []).1.map Prod.fst :=
    List.mem_map_of_mem Prod.fst hw
  rw [h.2] at hmem
  have hr := List.mem_range.mp hmem
  omega

open dartino in
/-- Witness for C10 on the concrete string [0x41, 0x42] with capacity 1:
only the first code point is written, at index 0, and the returned count
is 1. -/
theorem utf8_encode_string_bounded_witness :
    (Utf8.EncodeString [0x41, 0x42] 1).2 ≤ 1 ∧ ((0 : Nat), (0x41 : Nat)).1 < 1 := by
  have h := utf8_encode_string_bounded [0x41, 0x42] 1
  exact ⟨h.1, h.2.2 (0, 0x41) (by decide)⟩
